import Mathlib

/-
Shallow embedding of src/src/history/models.py (django-historicalrecords).

The Python module defines a HistoricalRecords descriptor that, for each
tracked Django model, synthesizes a parallel Historical* model, connects
post_save and post_delete signal handlers that write snapshot rows, and
patches the query-planner name map so the shadow relation is traversable.

Conventions of the embedding:
- Django model fields become the structure Field below; the isinstance
  checks of copy_fields become tests on FieldKind.
- Exceptions become the Except monad over ExcClass, an enumeration of the
  Python exception classes that matter here, with the subclass relation of
  the Python class hierarchy written out.
- The shadow table of one tracked model is a List Row; inserting appends.
- Machine details that the claims never touch (the __module__ dict entry,
  the unicode method of the generated class) are omitted.
-/

namespace History

/-- Behaviors for foreign key conversion (models.py lines 13 and 14).
The Python values are plain ints, so an invalid policy is any other Nat. -/
def PRESERVE : Nat := 1

/-- CONVERT is the default policy (models.py line 14 and line 157). -/
def CONVERT : Nat := 2

/-- The kinds of Django model fields that copy_fields distinguishes with
isinstance checks. dateTimeField is separate because DateTimeField
subclasses DateField in Django, so the DateField isinstance test catches
both; timeField is a sibling class. -/
inductive FieldKind where
  | foreignKey (relTo : String) (relRelatedName : Option String)
  | autoField
  | integerField
  | charField
  | dateField
  | dateTimeField
  | timeField
deriving DecidableEq, Repr

/-- One Django model field, with the attributes copy_fields reads or
writes. optsObjectName embeds field.opts.object_name: Django sets
self.opts = cls._meta in RelatedField.contribute_to_class, where cls is
the model DECLARING the field, so for a ForeignKey on a tracked model this
is the tracked model object name, not the target model name. -/
structure Field where
  name : String
  attname : String
  kind : FieldKind
  optsObjectName : String
  primary_key : Bool
  unique : Bool
  db_index : Bool
  null : Bool
  blank : Bool
  auto_now : Bool
  auto_now_add : Bool
deriving DecidableEq, Repr

def isForeignKey : FieldKind → Bool
  | .foreignKey _ _ => true
  | _ => false

/-- DateField isinstance test: DateTimeField subclasses DateField. -/
def isDateOrTime (k : FieldKind) : Bool :=
  k = .dateField || k = .dateTimeField || k = .timeField

/-- The reverse-relation name stored on a foreignKey kind, if any. -/
def FieldKind.relatedName : FieldKind → Option String
  | .foreignKey _ rn => rn
  | _ => none

/-- The relation target stored on a foreignKey kind, if any. -/
def FieldKind.target : FieldKind → Option String
  | .foreignKey t _ => some t
  | _ => none

/-- A model _meta record as copy_fields and create_historical_record use it:
the declared field list in order, the object name, and the primary key
field (field.rel.to._meta.pk in the CONVERT branch). -/
structure ModelMeta where
  objectName : String
  fields : List Field
  pk : Field
deriving DecidableEq, Repr

/-- str.lower() on a model object name, written as a structural map over
the character data so it evaluates by reduction. -/
def strLower (s : String) : String := ⟨s.data.map Char.toLower⟩

/-- The ForeignKey isinstance block of copy_fields (models.py lines
156-177). kc embeds self.key_conversions (a dict, so lookup with default
CONVERT); targets embeds the app registry resolving field.rel.to._meta.
The block may replace the field with a copy of the target pk (CONVERT),
rewrite rel.related_name (PRESERVE), or raise ValueError. -/
def fkStage (kc : String → Option Nat) (targets : String → ModelMeta)
    (field : Field) : Except String Field :=
  match field.kind with
  | .foreignKey relTo relatedName =>
      let conversion := (kc field.name).getD CONVERT
      if conversion = CONVERT then
        -- copy.copy(field.rel.to._meta.pk) with null, blank, name overridden
        let pkf := (targets relTo).pk
        .ok { pkf with null := field.null, blank := field.blank,
                       name := field.attname }
      else if conversion = PRESERVE then
        -- rel.related_name or field.opts.object_name.lower(), plus suffix
        let rn := relatedName.getD (strLower field.optsObjectName)
        .ok { field with
                kind := .foreignKey relTo (some (rn ++ "_historical")) }
      else
        .error "Invalid key conversion type"
  | _ => .ok field

/-- The AutoField block (models.py lines 179-182): field.__class__ is
reassigned to IntegerField, everything else kept. -/
def autoStage (field : Field) : Field :=
  if field.kind = .autoField then { field with kind := .integerField }
  else field

/-- The DateField/TimeField block (models.py lines 184-187). -/
def dateStage (field : Field) : Field :=
  if isDateOrTime field.kind then
    { field with auto_now := false, auto_now_add := false }
  else field

/-- The primary_key/unique block (models.py lines 189-194). -/
def uniqueStage (field : Field) : Field :=
  if field.primary_key || field.unique then
    { field with primary_key := false, unique := false, db_index := true }
  else field

/-- The body of the copy_fields loop for one field: the four isinstance
blocks in source order, the last three running on the field the
ForeignKey block may have replaced. -/
def transformField (kc : String → Option Nat) (targets : String → ModelMeta)
    (field : Field) : Except String Field :=
  match fkStage kc targets field with
  | .error e => .error e
  | .ok g => .ok (uniqueStage (dateStage (autoStage g)))

/-- copy_fields (models.py lines 142-197): transform every declared field
in order; the first ValueError aborts the loop. The Python function
returns a dict keyed by field.name; field names are unique on a model, so
the ordered list carries the same data. The non-field __module__ entry is
omitted. -/
def copyFieldList (kc : String → Option Nat) (targets : String → ModelMeta) :
    List Field → Except String (List Field)
  | [] => .ok []
  | f :: fs =>
      match transformField kc targets f with
      | .error e => .error e
      | .ok g =>
          match copyFieldList kc targets fs with
          | .error e => .error e
          | .ok gs => .ok (g :: gs)

def copy_fields (kc : String → Option Nat) (targets : String → ModelMeta)
    (model : ModelMeta) : Except String (List Field) :=
  copyFieldList kc targets model.fields

/-- The Python exception classes involved, with Exception at the root.
HistoricalIntegrityError is declared at models.py lines 274-275 as a
subclass of django.db.IntegrityError, itself a DatabaseError subclass. -/
inductive ExcClass where
  | exception
  | databaseError
  | integrityError
  | historicalIntegrityError
  | doesNotExist
deriving DecidableEq, Repr

/-- The reflexive-transitive subclass relation of the Python hierarchy
(HistoricalIntegrityError < IntegrityError < DatabaseError < Exception;
DoesNotExist < Exception), written out case by case. An except clause for
class C catches an exception of class E exactly when isSubclassOf E C. -/
def isSubclassOf (c d : ExcClass) : Bool :=
  c = d ||
    match c with
    | .historicalIntegrityError =>
        d = .integrityError || d = .databaseError || d = .exception
    | .integrityError => d = .databaseError || d = .exception
    | .databaseError => d = .exception
    | .doesNotExist => d = .exception
    | .exception => false

/-- One shadow-table row as manager.create builds it at models.py line
264: the copied attname-to-value assignments, history_type, and
history_date (whose field default is datetime.datetime.now, embedded as
the now parameter). history_id is the position in the table list. -/
structure Row where
  values : List (String × Int)
  history_type : Char
  history_date : Nat
deriving DecidableEq, Repr

/-- A tracked instance at capture time: its _meta, the attname-to-value
map getattr reads, whether getattr(instance, field.name) can dereference
each foreign key target (False embeds field.rel.to.DoesNotExist being
raised at line 259), and any exception the store raises from
manager.create (None on a successful insert). -/
structure Instance where
  meta : ModelMeta
  values : String → Int
  derefOk : String → Bool
  storeError : Option ExcClass

/-- The loop body of create_historical_record (models.py lines 242-263):
walk the fields in declared order; a PRESERVEd foreign key whose target
cannot be dereferenced raises HistoricalIntegrityError; otherwise record
(attname, value). -/
def collectAttrs (kc : String → Option Nat) (inst : Instance) :
    List Field → Except ExcClass (List (String × Int))
  | [] => .ok []
  | f :: fs =>
      if isForeignKey f.kind ∧ (kc f.name).getD CONVERT = PRESERVE ∧
          inst.derefOk f.name = false then
        .error .historicalIntegrityError
      else do
        let rest ← collectAttrs kc inst fs
        .ok ((f.attname, inst.values f.attname) :: rest)

/-- The attribute list a successful capture copies: every declared field current
current value, keyed by attname, in declared order. -/
def capturedAttrs (inst : Instance) : List (String × Int) :=
  inst.meta.fields.map (fun f => (f.attname, inst.values f.attname))

/-- create_historical_record (models.py lines 239-264): collect the field
values (raising HistoricalIntegrityError on a vanished PRESERVEd target),
then manager.create inserts exactly one row. An exception anywhere aborts
before the insert, so the error branch carries no new table. -/
def create_historical_record (kc : String → Option Nat) (inst : Instance)
    (tp : Char) (now : Nat) (table : List Row) : Except ExcClass (List Row) :=
  match collectAttrs kc inst inst.meta.fields with
  | .error e => .error e
  | .ok attrs =>
      match inst.storeError with
      | some e => .error e
      | none => .ok (table ++ [⟨attrs, tp, now⟩])

/-- post_save handler (models.py lines 230-231): capture with marker
(created and '+' or '~'); any exception propagates. -/
def post_save (kc : String → Option Nat) (inst : Instance) (created : Bool)
    (now : Nat) (table : List Row) : Except ExcClass (List Row) :=
  create_historical_record kc inst (if created then '+' else '~') now table

/-- post_delete handler (models.py lines 233-237): capture with marker
'-', swallowing exactly HistoricalIntegrityError (an except clause
catches the named class and its subclasses); anything else propagates. -/
def post_delete (kc : String → Option Nat) (inst : Instance)
    (now : Nat) (table : List Row) : Except ExcClass (List Row) :=
  match create_historical_record kc inst '-' now table with
  | .ok t => .ok t
  | .error e =>
      if isSubclassOf e .historicalIntegrityError then .ok table else .error e

/-- Every PRESERVEd foreign key of the instance dereferences, and the
store accepts the insert: the conditions under which a capture succeeds. -/
def okInstance (kc : String → Option Nat) (inst : Instance) : Prop :=
  (∀ f ∈ inst.meta.fields, isForeignKey f.kind = true →
      (kc f.name).getD CONVERT = PRESERVE → inst.derefOk f.name = true) ∧
  inst.storeError = none

instance (kc : String → Option Nat) (inst : Instance) :
    Decidable (okInstance kc inst) := by
  unfold okInstance; infer_instance

/- ------------------------------------------------------------------ -/
/- Helper lemmas about collectAttrs -/

theorem collectAttrs_ok (kc : String → Option Nat) (inst : Instance)
    (fs : List Field)
    (h : ∀ f ∈ fs, isForeignKey f.kind = true →
        (kc f.name).getD CONVERT = PRESERVE → inst.derefOk f.name = true) :
    collectAttrs kc inst fs =
      .ok (fs.map (fun f => (f.attname, inst.values f.attname))) := by
  induction fs with
  | nil => rfl
  | cons f fs ih =>
      have hf := h f (List.mem_cons_self f fs)
      have hrest : ∀ g ∈ fs, isForeignKey g.kind = true →
          (kc g.name).getD CONVERT = PRESERVE → inst.derefOk g.name = true :=
        fun g hg => h g (List.mem_cons_of_mem f hg)
      rw [collectAttrs]
      have hcond : ¬ (isForeignKey f.kind ∧ (kc f.name).getD CONVERT = PRESERVE ∧
          inst.derefOk f.name = false) := by
        rintro ⟨h1, h2, h3⟩
        have := hf h1 h2
        rw [this] at h3
        exact absurd h3 (by decide)
      rw [if_neg hcond, ih hrest]
      rfl

theorem collectAttrs_fail (kc : String → Option Nat) (inst : Instance)
    (fs : List Field)
    (h : ∃ f ∈ fs, isForeignKey f.kind = true ∧
        (kc f.name).getD CONVERT = PRESERVE ∧ inst.derefOk f.name = false) :
    collectAttrs kc inst fs = .error .historicalIntegrityError := by
  induction fs with
  | nil => obtain ⟨f, hf, _⟩ := h; exact absurd hf (List.not_mem_nil f)
  | cons f fs ih =>
      rw [collectAttrs]
      by_cases hc : isForeignKey f.kind ∧ (kc f.name).getD CONVERT = PRESERVE ∧
          inst.derefOk f.name = false
      · rw [if_pos hc]
      · rw [if_neg hc]
        obtain ⟨g, hg, hprops⟩ := h
        rcases List.mem_cons.mp hg with rfl | hgtail
        · exact absurd ⟨hprops.1, hprops.2.1, hprops.2.2⟩ hc
        · rw [ih ⟨g, hgtail, hprops⟩]
          rfl

/- ------------------------------------------------------------------ -/
/- C1 -/

/-- C1: capture(tracked_instance, operation_marker). If every PRESERVEd
foreign-key field of the tracked instance dereferences successfully, the
capture inserts exactly one new shadow row holding each tracked field
current value plus the operation marker and the timestamp; if some
PRESERVEd target no longer exists, HistoricalIntegrityError is signaled
and the exception aborts before the insert, so the shadow table gains
zero rows. -/
theorem C1_capture (kc : String → Option Nat) (inst : Instance) (tp : Char)
    (now : Nat) (table : List Row) (hstore : inst.storeError = none) :
    ((∀ f ∈ inst.meta.fields, isForeignKey f.kind = true →
        (kc f.name).getD CONVERT = PRESERVE → inst.derefOk f.name = true) →
      create_historical_record kc inst tp now table =
        .ok (table ++ [⟨capturedAttrs inst, tp, now⟩])) ∧
    ((∃ f ∈ inst.meta.fields, isForeignKey f.kind = true ∧
        (kc f.name).getD CONVERT = PRESERVE ∧ inst.derefOk f.name = false) →
      create_historical_record kc inst tp now table =
        .error .historicalIntegrityError) := by
  constructor
  · intro h
    simp only [create_historical_record, collectAttrs_ok kc inst _ h, hstore,
      capturedAttrs]
  · intro h
    simp only [create_historical_record, collectAttrs_fail kc inst _ h]

/-- The auto-increment primary key of the concrete Book model used in
the witnesses. -/
def idFieldW : Field :=
  { name := "id", attname := "id", kind := .autoField,
    optsObjectName := "Book", primary_key := true, unique := false,
    db_index := false, null := false, blank := false,
    auto_now := false, auto_now_add := false }

/-- A ForeignKey on Book pointing at Author, declared without an explicit
related_name; its opts is the DECLARING model Book. -/
def authorField : Field :=
  { name := "author", attname := "author_id",
    kind := .foreignKey "Author" none, optsObjectName := "Book",
    primary_key := false, unique := false, db_index := false,
    null := false, blank := false, auto_now := false,
    auto_now_add := false }

def bookMeta : ModelMeta :=
  { objectName := "Book", fields := [idFieldW, authorField], pk := idFieldW }

def instW : Instance where
  meta := bookMeta
  values := fun a => if a = "id" then 7 else if a = "author_id" then 3 else 0
  derefOk := fun _ => true
  storeError := none

def kcW : String → Option Nat := fun n => if n = "author" then some 1 else none

/-- C1 witness: a concrete instance with one PRESERVEd foreign key whose
target exists; capture appends exactly one row with the values, marker
and timestamp. -/
theorem C1_capture_witness :
    create_historical_record kcW instW '+' 5 [] =
      .ok [⟨[("id", 7), ("author_id", 3)], '+', 5⟩] := by
  have h := (C1_capture kcW instW '+' 5 [] rfl).1 (by decide)
  rw [h]
  rfl

/- ------------------------------------------------------------------ -/
/- Shared success and failure lemmas for capture and the handlers -/

theorem create_historical_record_ok (kc : String → Option Nat) (inst : Instance)
    (tp : Char) (now : Nat) (table : List Row) (h : okInstance kc inst) :
    create_historical_record kc inst tp now table =
      .ok (table ++ [⟨capturedAttrs inst, tp, now⟩]) := by
  simp only [create_historical_record, collectAttrs_ok kc inst _ h.1, h.2,
    capturedAttrs]

theorem create_historical_record_fail (kc : String → Option Nat)
    (inst : Instance) (tp : Char) (now : Nat) (table : List Row)
    (h : ∃ f ∈ inst.meta.fields, isForeignKey f.kind = true ∧
        (kc f.name).getD CONVERT = PRESERVE ∧ inst.derefOk f.name = false) :
    create_historical_record kc inst tp now table =
      .error .historicalIntegrityError := by
  simp only [create_historical_record, collectAttrs_fail kc inst _ h]

/- ------------------------------------------------------------------ -/
/- C2 -/

/-- C2: when a PRESERVEd foreign-key target has vanished, the capture
raises HistoricalIntegrityError; the post_delete handler swallows it
(no shadow row written, no error surfaced to the caller), while the
post_save handler (creation or update alike) propagates it to the caller
as a genuine error. -/
theorem C2_integrity_swallowed_only_on_delete (kc : String → Option Nat)
    (inst : Instance) (created : Bool) (now : Nat) (table : List Row)
    (hFail : ∃ f ∈ inst.meta.fields, isForeignKey f.kind = true ∧
        (kc f.name).getD CONVERT = PRESERVE ∧ inst.derefOk f.name = false) :
    post_delete kc inst now table = .ok table ∧
    post_save kc inst created now table = .error .historicalIntegrityError := by
  constructor
  · simp only [post_delete, create_historical_record_fail kc inst '-' now table hFail]
    rfl
  · simp only [post_save, create_historical_record_fail kc inst _ now table hFail]

/-- A concrete instance whose PRESERVEd foreign key no longer
dereferences: the cascade-delete scenario. -/
def instF : Instance := { instW with derefOk := fun _ => false }

/-- C2 witness: on the concrete vanished-target instance the delete
handler returns the table untouched and the save handler surfaces
HistoricalIntegrityError. -/
theorem C2_integrity_swallowed_only_on_delete_witness :
    post_delete kcW instF 9 [] = .ok [] ∧
    post_save kcW instF true 9 [] = .error .historicalIntegrityError :=
  C2_integrity_swallowed_only_on_delete kcW instF true 9 [] (by decide)

/- ------------------------------------------------------------------ -/
/- C3 -/

/-- A sequence of saves of a tracked instance: each step carries the
instance state at that save and the capture timestamp. The first save of
a run is the creating one (post_save receives created=True), every later
one receives created=False; each save fires the post_save handler. -/
def applySaves (kc : String → Option Nat) :
    List (Instance × Nat) → Bool → List Row → Except ExcClass (List Row)
  | [], _, table => .ok table
  | (i, t) :: rest, created, table =>
      match post_save kc i created t table with
      | .error e => .error e
      | .ok table2 => applySaves kc rest false table2

theorem applySaves_ok (kc : String → Option Nat) (steps : List (Instance × Nat))
    (table : List Row) (h : ∀ s ∈ steps, okInstance kc s.1) :
    applySaves kc steps false table =
      .ok (table ++ steps.map (fun s => ⟨capturedAttrs s.1, '~', s.2⟩)) := by
  induction steps generalizing table with
  | nil => simp [applySaves]
  | cons s rest ih =>
      obtain ⟨i, t⟩ := s
      have hi : okInstance kc i := h (i, t) (List.mem_cons_self _ _)
      have hrest : ∀ s ∈ rest, okInstance kc s.1 :=
        fun s hs => h s (List.mem_cons_of_mem _ hs)
      rw [applySaves]
      simp only [post_save, create_historical_record_ok kc i _ t table hi]
      rw [ih _ hrest]
      simp

/-- C3: the creating save plus N-1 further saves of a tracked instance
produce exactly N shadow rows; the creating save's row carries marker '+'
(Created) and every subsequent save's row carries '~' (Changed); a delete
adds one further row with marker '-' (Deleted). -/
theorem C3_one_row_per_event (kc : String → Option Nat) (s0 : Instance × Nat)
    (rest : List (Instance × Nat)) (h0 : okInstance kc s0.1)
    (hr : ∀ s ∈ rest, okInstance kc s.1) :
    applySaves kc (s0 :: rest) true [] =
      .ok (⟨capturedAttrs s0.1, '+', s0.2⟩ ::
           rest.map (fun s => ⟨capturedAttrs s.1, '~', s.2⟩)) ∧
    (⟨capturedAttrs s0.1, '+', s0.2⟩ ::
        rest.map (fun s => (⟨capturedAttrs s.1, '~', s.2⟩ : Row))).length =
      rest.length + 1 ∧
    (⟨capturedAttrs s0.1, '+', s0.2⟩ ::
        rest.map (fun s => (⟨capturedAttrs s.1, '~', s.2⟩ : Row))).map
        Row.history_type = '+' :: List.replicate rest.length '~' ∧
    (∀ inst now tbl, okInstance kc inst →
      post_delete kc inst now tbl =
        .ok (tbl ++ [⟨capturedAttrs inst, '-', now⟩])) := by
  refine ⟨?_, ?_, ?_, ?_⟩
  · obtain ⟨i, t⟩ := s0
    rw [applySaves]
    simp only [post_save, create_historical_record_ok kc i _ t [] h0]
    rw [applySaves_ok kc rest _ hr]
    simp
  · simp
  · simp only [List.map_cons, List.map_map]
    congr 1
    clear hr
    induction rest with
    | nil => rfl
    | cons s rest ih => simp [List.replicate_succ, ih]
  · intro inst now tbl hok
    simp only [post_delete, create_historical_record_ok kc inst '-' now tbl hok]

/-- C3 witness: two concrete saves of instW give two rows marked '+' then
'~', and a delete then appends a '-' row. -/
theorem C3_one_row_per_event_witness :
    applySaves kcW [(instW, 1), (instW, 2)] true [] =
      .ok [⟨[("id", 7), ("author_id", 3)], '+', 1⟩,
           ⟨[("id", 7), ("author_id", 3)], '~', 2⟩] ∧
    post_delete kcW instW 3
        [⟨[("id", 7), ("author_id", 3)], '+', 1⟩,
         ⟨[("id", 7), ("author_id", 3)], '~', 2⟩] =
      .ok [⟨[("id", 7), ("author_id", 3)], '+', 1⟩,
           ⟨[("id", 7), ("author_id", 3)], '~', 2⟩,
           ⟨[("id", 7), ("author_id", 3)], '-', 3⟩] := by
  have h := C3_one_row_per_event kcW (instW, 1) [(instW, 2)] (by decide)
    (by decide)
  constructor
  · rw [h.1]; rfl
  · rw [h.2.2.2 instW 3 _ (by decide)]; rfl

/- ------------------------------------------------------------------ -/
/- C10 -/

/-- C10: HistoricalIntegrityError is a strict subtype of the store-level
IntegrityError, and post_delete suppresses exactly exceptions of that
subtype: whatever exception the capture raises, the handler swallows it
precisely when its class is a subclass of HistoricalIntegrityError, and
lets everything else, including a plain IntegrityError from the store,
propagate unchanged. -/
theorem C10_suppression_is_exact (kc : String → Option Nat) (inst : Instance)
    (now : Nat) (table : List Row) (e : ExcClass)
    (h : create_historical_record kc inst '-' now table = .error e) :
    isSubclassOf .historicalIntegrityError .integrityError = true ∧
    ExcClass.historicalIntegrityError ≠ ExcClass.integrityError ∧
    (∀ c, isSubclassOf c .historicalIntegrityError = true →
      c = ExcClass.historicalIntegrityError) ∧
    post_delete kc inst now table =
      (if isSubclassOf e .historicalIntegrityError then .ok table
       else .error e) := by
  refine ⟨by decide, by decide, ?_, ?_⟩
  · intro c hc
    cases c <;> first | rfl | exact absurd hc (by decide)
  · rw [post_delete, h]

/-- A concrete instance whose insert raises a plain store-level
IntegrityError (for example a constraint violation). -/
def instS : Instance := { instW with storeError := some .integrityError }

/-- C10 witness: a plain IntegrityError raised while capturing a delete
is not swallowed; post_delete propagates it unchanged. -/
theorem C10_suppression_is_exact_witness :
    isSubclassOf .historicalIntegrityError .integrityError = true ∧
    ExcClass.historicalIntegrityError ≠ ExcClass.integrityError ∧
    (∀ c, isSubclassOf c .historicalIntegrityError = true →
      c = ExcClass.historicalIntegrityError) ∧
    post_delete kcW instS 4 [] =
      (if isSubclassOf .integrityError .historicalIntegrityError then .ok []
       else .error .integrityError) :=
  C10_suppression_is_exact kcW instS 4 [] .integrityError (by rfl)

/- ------------------------------------------------------------------ -/
/- The declaration-time registry: contribute_to_class, finalize signal
   connection, class_prepared dispatch (models.py lines 26-32, 101-108) -/

/-- Python dict assignment m[k] = v on an association list: replace the
value in place if the key exists, append otherwise. -/
def dictInsert {β : Type} (m : List (String × β)) (k : String) (v : β) :
    List (String × β) :=
  if k ∈ m.map Prod.fst then
    m.map (fun p => if p.1 = k then (k, v) else p)
  else m ++ [(k, v)]

/-- Django Signal.connect deduplicates receivers by lookup key; two
distinct HistoricalRecords instances have distinct keys, so a receiver is
the pair (declaration instance id, sender model name). -/
def connectSignal (r : Nat × String) (rs : List (Nat × String)) :
    List (Nat × String) :=
  if r ∈ rs then rs else rs ++ [r]

/-- The process-wide registration state: the HISTORICAL_RECORD_CLASSES
class dict, AppCache().app_errors, and the receiver lists of the
class_prepared, post_save and post_delete signals. -/
structure SignalState where
  historicalRecordClasses : List String
  appErrors : List (String × String)
  classPrepared : List (Nat × String)
  postSave : List (Nat × String)
  postDelete : List (Nat × String)
deriving DecidableEq, Repr

def emptySignalState : SignalState := ⟨[], [], [], [], []⟩

def duplicateMsg : String :=
  "Models cannot have more than one HistoricalRecords field."

/-- contribute_to_class (models.py lines 26-32): record a configuration
error in app_errors when the model already carries a HistoricalRecords
field, mark the model as carrying one, and connect this declaration
instance to class_prepared. Note the connect happens unconditionally,
also for a duplicate declaration. -/
def contribute_to_class (declId : Nat) (cls : String) (st : SignalState) :
    SignalState :=
  let st1 :=
    if cls ∈ st.historicalRecordClasses then
      { st with appErrors := dictInsert st.appErrors cls duplicateMsg }
    else st
  let st2 :=
    { st1 with historicalRecordClasses :=
        if cls ∈ st1.historicalRecordClasses then st1.historicalRecordClasses
        else st1.historicalRecordClasses ++ [cls] }
  { st2 with classPrepared := connectSignal (declId, cls) st2.classPrepared }

/-- The signal-connection half of finalize (models.py lines 105-108):
connect this declaration instance to post_save and post_delete for the
sender, with strong references. -/
def finalize_connect (declId : Nat) (sender : String) (st : SignalState) :
    SignalState :=
  { st with postSave := connectSignal (declId, sender) st.postSave,
            postDelete := connectSignal (declId, sender) st.postDelete }

/-- Sending class_prepared for a model: every connected receiver whose
sender matches runs its finalize, which connects the lifecycle hooks. -/
def fireClassPrepared (cls : String) (st : SignalState) : SignalState :=
  st.classPrepared.foldl
    (fun s r => if r.2 = cls then finalize_connect r.1 r.2 s else s) st

/-- Two HistoricalRecords declarations (ids 0 and 1) on the same model M,
then class_prepared fires for M. -/
def twoDeclState : SignalState :=
  fireClassPrepared "M"
    (contribute_to_class 1 "M" (contribute_to_class 0 "M" emptySignalState))

/- ------------------------------------------------------------------ -/
/- C4 -/

/-- C4 counterexample: after a second HistoricalRecords declaration on
the same model, the post_save and post_delete signals each hold TWO
receivers for that model, not one: the duplicate declaration is recorded
as a configuration error, but contribute_to_class still connects the
second instance to class_prepared, and its finalize connects a second
post_save/post_delete pair. -/
theorem C4_counterexample :
    (twoDeclState.postSave.filter (fun r => r.2 = "M")).length = 2 ∧
    ¬ (twoDeclState.postSave.filter (fun r => r.2 = "M")).length = 1 ∧
    (twoDeclState.postDelete.filter (fun r => r.2 = "M")).length = 2 := by
  decide

/-- C4 amended: a second declaration on the same Tracked Type is reported
as a configuration error at declaration time, but it still results in a
second subscription pair: two distinct declarations yield exactly two
post-save receivers and two post-delete receivers for the type, one per
declaration. -/
theorem C4_duplicate_reported_but_double_connected (i j : Nat) (c : String)
    (hij : i ≠ j) :
    (fireClassPrepared c
        (contribute_to_class j c
          (contribute_to_class i c emptySignalState))).postSave =
      [(i, c), (j, c)] ∧
    (fireClassPrepared c
        (contribute_to_class j c
          (contribute_to_class i c emptySignalState))).postDelete =
      [(i, c), (j, c)] ∧
    (contribute_to_class j c
        (contribute_to_class i c emptySignalState)).appErrors =
      [(c, duplicateMsg)] := by
  have hne : ((j, c) : Nat × String) ≠ (i, c) := by
    intro h
    exact hij ((Prod.mk.injEq j c i c).mp h).1.symm
  simp [contribute_to_class, emptySignalState, fireClassPrepared,
    finalize_connect, connectSignal, dictInsert, hne, hij, Ne.symm hij]

/-- C4 witness: the amended statement at declarations 0 and 1 on model M. -/
theorem C4_duplicate_reported_but_double_connected_witness :
    (fireClassPrepared "M"
        (contribute_to_class 1 "M"
          (contribute_to_class 0 "M" emptySignalState))).postSave =
      [(0, "M"), (1, "M")] ∧
    (fireClassPrepared "M"
        (contribute_to_class 1 "M"
          (contribute_to_class 0 "M" emptySignalState))).postDelete =
      [(0, "M"), (1, "M")] ∧
    (contribute_to_class 1 "M"
        (contribute_to_class 0 "M" emptySignalState)).appErrors =
      [("M", duplicateMsg)] :=
  C4_duplicate_reported_but_double_connected 0 1 "M" (by decide)

/- ------------------------------------------------------------------ -/
/- The dependency-deferred finalizer (models.py lines 101-130) -/

/-- The observable steps of finalize, in execution order: connecting the
two lifecycle hooks, one add_lazy_relation callback firing per foreign
key dependency, and the body of the local _finalize closure (shadow-type
synthesis via create_history_model, HistoryDescriptor attachment, and the
name-map retrofit). -/
inductive FinalizeEvent where
  | connectPostSave
  | connectPostDelete
  | depResolved
  | synthesize
  | attachDescriptor
  | retrofit
deriving DecidableEq, Repr

/-- The _finalize closure body (models.py lines 110-114), in order. -/
def synthSeq : List FinalizeEvent :=
  [.synthesize, .attachDescriptor, .retrofit]

/-- The state of the dependency countdown: the mutable count[0] cell
(a Python int, so an Int here) and the trace of events so far. -/
structure FinState where
  count : Int
  trace : List FinalizeEvent
deriving DecidableEq, Repr

/-- The dependency_resolved callback (models.py lines 122-125): decrement
the count and run _finalize exactly when it reaches zero. -/
def dependency_resolved (s : FinState) : FinState :=
  let c := s.count - 1
  if c = 0 then ⟨c, s.trace ++ [.depResolved] ++ synthSeq⟩
  else ⟨c, s.trace ++ [.depResolved]⟩

/-- The body of finalize itself (models.py lines 101-130): connect
post_save and post_delete first, then either run _finalize immediately
(no foreign-key dependencies) or set up the countdown and wait. -/
def finalize_init (numDeps : Nat) : FinState :=
  if numDeps = 0 then
    ⟨0, [.connectPostSave, .connectPostDelete] ++ synthSeq⟩
  else ⟨(numDeps : Int), [.connectPostSave, .connectPostDelete]⟩

/-- Fire the dependency_resolved callback k times (add_lazy_relation
calls it exactly once per dependency). -/
def resolveN : Nat → FinState → FinState
  | 0, s => s
  | k + 1, s => resolveN k (dependency_resolved s)

/-- The full event trace of finalizing a tracked model with d foreign-key
dependencies: finalize runs at class_prepared time, then each dependency
resolves once. -/
def finalizeTrace (d : Nat) : List FinalizeEvent :=
  (resolveN d (finalize_init d)).trace

theorem resolveN_run (k : Nat) : ∀ s : FinState, s.count = (k : Int) → 0 < k →
    resolveN k s = ⟨0, s.trace ++ List.replicate k .depResolved ++ synthSeq⟩ := by
  induction k with
  | zero => intro s _ h; exact absurd h (by decide)
  | succ k ih =>
      intro s hc _
      rw [resolveN]
      rcases Nat.eq_zero_or_pos k with hk | hk
      · subst hk
        have hd : dependency_resolved s =
            ⟨0, s.trace ++ [.depResolved] ++ synthSeq⟩ := by
          simp only [dependency_resolved, hc]
          norm_num
        rw [hd, resolveN]
        simp [List.replicate, List.append_assoc]
      · have hcount : s.count - 1 = (k : Int) := by rw [hc]; push_cast; ring
        have hne : s.count - 1 ≠ 0 := by
          rw [hcount]
          exact_mod_cast Nat.pos_iff_ne_zero.mp hk
        have hd : dependency_resolved s =
            ⟨(k : Int), s.trace ++ [.depResolved]⟩ := by
          simp only [dependency_resolved, hcount]
          rw [if_neg (show (k : Int) ≠ 0 by
            exact_mod_cast Nat.pos_iff_ne_zero.mp hk)]
        rw [hd, ih _ rfl hk]
        simp [List.replicate_succ, List.append_assoc]

/- ------------------------------------------------------------------ -/
/- C5 -/

/-- C5 counterexample: for a tracked model with one foreign-key
dependency, the registrar attachment (connecting post_save) happens
FIRST, before the dependency resolves and before synthesis — so the
claimed order (wait for dependencies, then synthesis, then registrar
attachment, then retrofit) is false: synthesize does not precede
connectPostSave in the actual trace. -/
theorem C5_counterexample :
    finalizeTrace 1 =
      [.connectPostSave, .connectPostDelete, .depResolved, .synthesize,
       .attachDescriptor, .retrofit] ∧
    ¬ ((finalizeTrace 1).indexOf FinalizeEvent.synthesize <
        (finalizeTrace 1).indexOf FinalizeEvent.connectPostSave) := by
  decide

/-- C5 amended: finalize connects the post-save and post-delete handlers
immediately when the tracked type is prepared, BEFORE waiting on its
foreign-key dependencies; only once every dependency has resolved does it
perform shadow-type synthesis, then descriptor attachment, then the
query-planner retrofit, in that order, exactly once; with zero
foreign-key dependencies that sequence runs immediately after the
handlers are connected. -/
theorem C5_finalize_order (d : Nat) :
    finalizeTrace d =
      [.connectPostSave, .connectPostDelete] ++
        List.replicate d .depResolved ++ synthSeq ∧
    (finalizeTrace d).count .synthesize = 1 ∧
    (finalizeTrace d).count .retrofit = 1 := by
  have heq : finalizeTrace d =
      [.connectPostSave, .connectPostDelete] ++
        List.replicate d .depResolved ++ synthSeq := by
    rcases Nat.eq_zero_or_pos d with hd | hd
    · subst hd
      rfl
    · rw [finalizeTrace, finalize_init, if_neg (Nat.pos_iff_ne_zero.mp hd),
        resolveN_run d _ rfl hd]
  refine ⟨heq, ?_, ?_⟩ <;>
    · rw [heq]
      simp [List.count_append, synthSeq, List.count_replicate, List.count_cons,
        List.count_nil]

/- ------------------------------------------------------------------ -/
/- The query-planner retrofit (models.py lines 46-92) -/

/-- The RelatedObject built in update_item_name_map from (cls,
history_model, history_fk) with history_fk.column set to the tracked
model pk attname. The Python name map stores the 4-tuple
(rel, None, False, False); the last three components are the same for
every injected entry, so the descriptor alone carries the data. -/
structure RelDescr where
  parentModel : String
  historyModel : String
  column : String
deriving DecidableEq, Repr

/-- The Django _name_map: name to relation-descriptor entries. -/
abbrev NameMap := List (String × RelDescr)

/-- update_item_name_map (models.py lines 81-92): copy the map and assign
the synthetic history entry under the manager attribute name. -/
def update_item_name_map (clsName pkAttname historyModel managerName : String)
    (map : NameMap) : NameMap :=
  dictInsert map managerName ⟨clsName, historyModel, pkAttname⟩

/-- The replacement init_name_map installed by monkey_patch_name_map
(models.py lines 65-74): compute the original map, apply
update_item_name_map, and return the updated map only when it differs
and the app cache is ready; otherwise return the original untouched. -/
def patched_init_name_map (clsName pkAttname historyModel managerName : String)
    (ready : Bool) (originalMap : NameMap) : NameMap :=
  let updated :=
    update_item_name_map clsName pkAttname historyModel managerName originalMap
  if originalMap ≠ updated ∧ ready = true then updated else originalMap

theorem dictInsert_not_mem {β : Type} (m : List (String × β)) (k : String)
    (v : β) (h : k ∉ m.map Prod.fst) : dictInsert m k v = m ++ [(k, v)] := by
  rw [dictInsert, if_neg h]

theorem ne_append_single {β : Type} (m : List (String × β)) (p : String × β) :
    m ≠ m ++ [p] := by
  intro h
  have := congrArg List.length h
  simp at this

theorem lookup_append_of_ne {β : Type} (m : List (String × β))
    (k k' : String) (v : β) (hne : k' ≠ k) :
    List.lookup k' (m ++ [(k, v)]) = List.lookup k' m := by
  induction m with
  | nil => simp [List.lookup, beq_false_of_ne hne]
  | cons p m ih =>
      rw [List.cons_append, List.lookup, List.lookup]
      cases h : (k' == p.1) with
      | true => rfl
      | false => exact ih

theorem lookup_append_self {β : Type} (m : List (String × β)) (k : String)
    (v : β) (h : k ∉ m.map Prod.fst) :
    List.lookup k (m ++ [(k, v)]) = some v := by
  induction m with
  | nil => simp [List.lookup]
  | cons p m ih =>
      rw [List.cons_append, List.lookup]
      have hk : k ≠ p.1 := by
        intro he
        exact h (by simp [he])
      rw [beq_false_of_ne hk]
      exact ih (fun hm => h (List.mem_cons_of_mem _ hm))

theorem map_replace_id {β : Type} (m : List (String × β)) (k : String)
    (v : β) (h : k ∉ m.map Prod.fst) :
    m.map (fun p => if p.1 = k then (k, v) else p) = m := by
  induction m with
  | nil => rfl
  | cons p rest ih =>
      rw [List.map_cons]
      have hp : p.1 ≠ k := by
        intro he
        exact h (by simp [he])
      rw [if_neg hp, ih (fun hm => h (List.mem_cons_of_mem _ hm))]

theorem dictInsert_absorb {β : Type} (m : List (String × β)) (k : String)
    (v : β) (h : k ∉ m.map Prod.fst) :
    dictInsert (m ++ [(k, v)]) k v = m ++ [(k, v)] := by
  rw [dictInsert, if_pos (by simp)]
  rw [List.map_append, map_replace_id m k v h]
  simp

/- ------------------------------------------------------------------ -/
/- C6 -/

/-- C6: the retrofit is idempotent. After the app cache is ready, a
rebuild of the name map yields the original entries plus exactly one
synthetic history entry under the manager attribute name; entries under
every other name are untouched; reapplying the patched builder to its own
output changes nothing; and before the app cache is ready the builder
returns the original map unchanged. -/
theorem C6_retrofit_idempotent (clsName pkAttname historyModel managerName :
    String) (m : NameMap) (hk : managerName ∉ m.map Prod.fst) :
    patched_init_name_map clsName pkAttname historyModel managerName true m =
      m ++ [(managerName, ⟨clsName, historyModel, pkAttname⟩)] ∧
    List.lookup managerName
        (patched_init_name_map clsName pkAttname historyModel managerName
          true m) =
      some ⟨clsName, historyModel, pkAttname⟩ ∧
    (∀ k, k ≠ managerName →
      List.lookup k
          (patched_init_name_map clsName pkAttname historyModel managerName
            true m) =
        List.lookup k m) ∧
    ((patched_init_name_map clsName pkAttname historyModel managerName
        true m).map Prod.fst).count managerName = 1 ∧
    patched_init_name_map clsName pkAttname historyModel managerName true
        (patched_init_name_map clsName pkAttname historyModel managerName
          true m) =
      patched_init_name_map clsName pkAttname historyModel managerName true m ∧
    patched_init_name_map clsName pkAttname historyModel managerName false m =
      m := by
  have hupd : update_item_name_map clsName pkAttname historyModel managerName
      m = m ++ [(managerName, ⟨clsName, historyModel, pkAttname⟩)] :=
    dictInsert_not_mem m managerName _ hk
  have hmain : patched_init_name_map clsName pkAttname historyModel
      managerName true m =
      m ++ [(managerName, ⟨clsName, historyModel, pkAttname⟩)] := by
    rw [patched_init_name_map, hupd,
      if_pos ⟨ne_append_single m _, rfl⟩]
  refine ⟨hmain, ?_, ?_, ?_, ?_, ?_⟩
  · rw [hmain]
    exact lookup_append_self m managerName _ hk
  · intro k hke
    rw [hmain]
    exact lookup_append_of_ne m managerName k _ hke
  · rw [hmain, List.map_append, List.count_append]
    simp [List.count_eq_zero.mpr hk]
  · rw [hmain, patched_init_name_map, update_item_name_map,
      dictInsert_absorb m managerName _ hk]
    rw [if_neg (by simp)]
  · rw [patched_init_name_map]
    rw [if_neg (by simp)]

/-- C6 witness: a concrete map with one pre-existing relation entry for a
model Book whose manager attribute is named history. -/
theorem C6_retrofit_idempotent_witness :
    patched_init_name_map "Book" "id" "HistoricalBook" "history" true
        [("publisher", ⟨"Book", "Publisher", "publisher_id"⟩)] =
      [("publisher", ⟨"Book", "Publisher", "publisher_id"⟩),
       ("history", ⟨"Book", "HistoricalBook", "id"⟩)] ∧
    patched_init_name_map "Book" "id" "HistoricalBook" "history" false
        [("publisher", ⟨"Book", "Publisher", "publisher_id"⟩)] =
      [("publisher", ⟨"Book", "Publisher", "publisher_id"⟩)] := by
  have h := C6_retrofit_idempotent "Book" "id" "HistoricalBook" "history"
    [("publisher", ⟨"Book", "Publisher", "publisher_id"⟩)] (by decide)
  exact ⟨h.1, h.2.2.2.2.2⟩

/- ------------------------------------------------------------------ -/
/- Stage lemmas for the field transformation -/

theorem uniqueStage_kind (f : Field) : (uniqueStage f).kind = f.kind := by
  rw [uniqueStage]; split_ifs <;> rfl

theorem uniqueStage_auto (f : Field) :
    (uniqueStage f).auto_now = f.auto_now ∧
    (uniqueStage f).auto_now_add = f.auto_now_add := by
  rw [uniqueStage]; split_ifs <;> exact ⟨rfl, rfl⟩

theorem dateStage_kind (f : Field) : (dateStage f).kind = f.kind := by
  rw [dateStage]; split_ifs <;> rfl

theorem dateStage_strips (f : Field) (h : isDateOrTime f.kind = true) :
    (dateStage f).auto_now = false ∧ (dateStage f).auto_now_add = false := by
  rw [dateStage, if_pos h]; exact ⟨rfl, rfl⟩

theorem autoStage_not_auto (f : Field) (h : ¬ f.kind = .autoField) :
    autoStage f = f := by
  rw [autoStage, if_neg h]

/-- The ForeignKey block on a PRESERVEd foreign key: the relation is kept,
with related_name (rel.related_name or the declaring model lowercased
object name) plus the _historical suffix. -/
theorem fkStage_preserve (kc : String → Option Nat)
    (targets : String → ModelMeta) (f : Field) (relTo : String)
    (rn : Option String) (hkind : f.kind = .foreignKey relTo rn)
    (hpol : (kc f.name).getD CONVERT = PRESERVE) :
    fkStage kc targets f =
      .ok { f with kind := (.foreignKey relTo
              (some ((rn.getD (strLower f.optsObjectName)) ++ "_historical"))) } := by
  obtain ⟨nm, an, kd, opts, pk, un, di, nl, bl, anow, aadd⟩ := f
  simp only at hkind hpol
  subst hkind
  simp only [fkStage, hpol]
  rw [if_neg (by decide)]
  simp

/- ------------------------------------------------------------------ -/
/- C7 -/

/-- C7 counterexample: a ForeignKey named author on the model Book,
targeting the model Author, with no declared related_name. The PRESERVE
transformation gives reverse-relation name book_historical — the
DECLARING model lowercased name plus the suffix (field.opts is the
declaring model _meta) — not author_historical, the target
lowercased name plus the suffix, as the claim states. -/
theorem C7_counterexample :
    (transformField (fun n => if n = "author" then some PRESERVE else none)
        (fun _ => bookMeta) authorField).map (fun f => f.kind.relatedName) =
      .ok (some "book_historical") ∧
    some "book_historical" ≠ some (strLower "Author" ++ "_historical") := by
  constructor
  · rfl
  · decide

/-- C7 amended: for a foreign-key field under the PRESERVE policy the
shadow field remains a live relational link to the same target, and its
reverse-relation name is the declared related_name if one was given,
otherwise the DECLARING (tracked) model lowercase object name, followed
by the _historical suffix. -/
theorem C7_preserve_keeps_link (kc : String → Option Nat)
    (targets : String → ModelMeta) (f : Field) (relTo : String)
    (rn : Option String) (hkind : f.kind = .foreignKey relTo rn)
    (hpol : (kc f.name).getD CONVERT = PRESERVE) :
    ∃ f', transformField kc targets f = .ok f' ∧
      f'.kind = .foreignKey relTo
        (some ((rn.getD (strLower f.optsObjectName)) ++ "_historical")) := by
  rw [transformField, fkStage_preserve kc targets f relTo rn hkind hpol]
  refine ⟨_, rfl, ?_⟩
  rw [uniqueStage_kind, dateStage_kind,
    autoStage_not_auto _ (by simp)]

/-- C7 witness: the amended statement on the concrete author field. -/
theorem C7_preserve_keeps_link_witness :
    ∃ f', transformField (fun n => if n = "author" then some PRESERVE else none)
        (fun _ => bookMeta) authorField = .ok f' ∧
      f'.kind = .foreignKey "Author" (some "book_historical") := by
  obtain ⟨f', h1, h2⟩ := C7_preserve_keeps_link
    (fun n => if n = "author" then some PRESERVE else none)
    (fun _ => bookMeta) authorField "Author" none rfl (by decide)
  exact ⟨f', h1, by rw [h2]; rfl⟩

/- ------------------------------------------------------------------ -/
/- C8 -/

/-- Modelled from the spec: the collaborating store's insert behavior for
a date/time field (spec 4.1 rule 2 and the external store contract). A
field still carrying auto-set behavior stores a freshly computed now in
place of the assigned value; a field without it stores the assigned value
verbatim. -/
def preSaveValue (f : Field) (assigned now : Int) : Int :=
  if f.auto_now || f.auto_now_add then now else assigned

theorem transformField_auto_flags (kc : String → Option Nat)
    (targets : String → ModelMeta) (f g : Field)
    (h : transformField kc targets f = .ok g)
    (hk : isDateOrTime g.kind = true) :
    g.auto_now = false ∧ g.auto_now_add = false := by
  rw [transformField] at h
  cases hfk : fkStage kc targets f with
  | error e => rw [hfk] at h; exact absurd h (by simp)
  | ok g0 =>
      rw [hfk] at h
      have hg : g = uniqueStage (dateStage (autoStage g0)) := by
        injection h with h'
        exact h'.symm
      subst hg
      have hk2 : isDateOrTime (autoStage g0).kind = true := by
        rw [uniqueStage_kind, dateStage_kind] at hk
        exact hk
      have hs := dateStage_strips (autoStage g0) hk2
      rcases uniqueStage_auto (dateStage (autoStage g0)) with ⟨h1, h2⟩
      exact ⟨h1.trans hs.1, h2.trans hs.2⟩

theorem copyFieldList_mem (kc : String → Option Nat)
    (targets : String → ModelMeta) (fs : List Field) :
    ∀ gs, copyFieldList kc targets fs = .ok gs → ∀ g ∈ gs,
      ∃ f ∈ fs, transformField kc targets f = .ok g := by
  induction fs with
  | nil =>
      intro gs h g hg
      rw [copyFieldList] at h
      injection h with h'
      subst h'
      exact absurd hg (List.not_mem_nil g)
  | cons f fs ih =>
      intro gs h g hg
      rw [copyFieldList] at h
      cases hf : transformField kc targets f with
      | error e => rw [hf] at h; exact absurd h (by simp)
      | ok g0 =>
          rw [hf] at h
          cases hrest : copyFieldList kc targets fs with
          | error e => rw [hrest] at h; exact absurd h (by simp)
          | ok gs0 =>
              rw [hrest] at h
              injection h with h'
              subst h'
              rcases List.mem_cons.mp hg with rfl | hgt
              · exact ⟨f, List.mem_cons_self _ _, hf⟩
              · obtain ⟨f', hmem, hok⟩ := ih gs0 hrest g hgt
                exact ⟨f', List.mem_cons_of_mem _ hmem, hok⟩

theorem lookup_map_attnames (v : String → Int) (fs : List Field) (a : String)
    (h : a ∈ fs.map Field.attname) :
    List.lookup a (fs.map (fun f => (f.attname, v f.attname))) = some (v a) := by
  induction fs with
  | nil => simp at h
  | cons f fs ih =>
      rw [List.map_cons, List.lookup]
      by_cases he : a = f.attname
      · rw [beq_iff_eq.mpr he, he]
      · rw [beq_false_of_ne he]
        apply ih
        have h' : a = f.attname ∨ ∃ x ∈ fs, x.attname = a := by simpa using h
        rcases h' with he' | ⟨x, hx, hxa⟩
        · exact absurd he' he
        · exact List.mem_map.mpr ⟨x, hx, hxa⟩

/-- A full save run starting with the creating save: one '+' row from
the first save and one '~' row per further save. -/
theorem applySaves_run (kc : String → Option Nat) (s0 : Instance × Nat)
    (rest : List (Instance × Nat)) (h0 : okInstance kc s0.1)
    (hr : ∀ s ∈ rest, okInstance kc s.1) :
    applySaves kc (s0 :: rest) true [] =
      .ok (⟨capturedAttrs s0.1, '+', s0.2⟩ ::
           rest.map (fun s => ⟨capturedAttrs s.1, '~', s.2⟩)) := by
  obtain ⟨i, t⟩ := s0
  rw [applySaves]
  simp only [post_save, create_historical_record_ok kc i _ t [] h0]
  rw [applySaves_ok kc rest _ hr]
  simp

/-- C8: every date/time field of the synthesized shadow field set has its
auto-set-on-create and auto-set-on-every-save behavior stripped, so the
store writes the captured value verbatim rather than a freshly computed
one; consequently, in any save run in which the tracked instance's value
of an attribute stays fixed (as an auto-set-on-create value does after
creation), every shadow row holds that identical value. -/
theorem C8_auto_set_behavior_stripped (kc : String → Option Nat)
    (targets : String → ModelMeta) (model : ModelMeta) (fs : List Field)
    (hok : copy_fields kc targets model = .ok fs) :
    (∀ g ∈ fs, isDateOrTime g.kind = true →
      g.auto_now = false ∧ g.auto_now_add = false ∧
      ∀ assigned now : Int, preSaveValue g assigned now = assigned) ∧
    (∀ (a : String) (v0 : Int) (s0 : Instance × Nat)
        (rest : List (Instance × Nat)) (rows : List Row),
      okInstance kc s0.1 → (∀ s ∈ rest, okInstance kc s.1) →
      s0.1.values a = v0 → a ∈ s0.1.meta.fields.map Field.attname →
      (∀ s ∈ rest, s.1.values a = v0 ∧ a ∈ s.1.meta.fields.map Field.attname) →
      applySaves kc (s0 :: rest) true [] = .ok rows →
      ∀ r ∈ rows, List.lookup a r.values = some v0) := by
  constructor
  · intro g hg hk
    obtain ⟨f, _, hf⟩ := copyFieldList_mem kc targets model.fields fs hok g hg
    obtain ⟨h1, h2⟩ := transformField_auto_flags kc targets f g hf hk
    refine ⟨h1, h2, ?_⟩
    intro assigned now
    rw [preSaveValue, h1, h2]
    rfl
  · intro a v0 s0 rest rows h0 hr hv0 ha hrest happ
    rw [applySaves_run kc s0 rest h0 hr] at happ
    injection happ with h'
    subst h'
    intro r hrow
    rcases List.mem_cons.mp hrow with rfl | ht
    · show List.lookup a (capturedAttrs s0.1) = some v0
      rw [capturedAttrs, lookup_map_attnames s0.1.values _ a ha, hv0]
    · obtain ⟨s, hs, hr'⟩ := List.mem_map.mp ht
      obtain ⟨hv, ha'⟩ := hrest s hs
      rw [← hr']
      show List.lookup a (capturedAttrs s.1) = some v0
      rw [capturedAttrs, lookup_map_attnames s.1.values _ a ha', hv]

/-- A DateTimeField with auto_now_add on a tracked Event model. -/
def createdField : Field :=
  { name := "created", attname := "created", kind := .dateTimeField,
    optsObjectName := "Event", primary_key := false, unique := false,
    db_index := false, null := false, blank := false,
    auto_now := false, auto_now_add := true }

def eventMeta : ModelMeta :=
  { objectName := "Event", fields := [createdField], pk := idFieldW }

/-- The shadow copy of createdField: auto_now_add stripped. -/
def createdStripped : Field := { createdField with auto_now_add := false }

def eventInst : Instance where
  meta := eventMeta
  values := fun a => if a = "created" then 11 else 0
  derefOk := fun _ => true
  storeError := none

/-- C8 witness: the Event model shadow field set strips auto_now_add
from the created field, the store then writes assigned values verbatim,
and both rows of a two-save run hold the identical creation value 11. -/
theorem C8_auto_set_behavior_stripped_witness :
    createdStripped.auto_now = false ∧ createdStripped.auto_now_add = false ∧
    preSaveValue createdStripped 11 99 = 11 ∧
    List.lookup "created"
        (Row.values ⟨capturedAttrs eventInst, '+', 1⟩) = some 11 ∧
    List.lookup "created"
        (Row.values ⟨capturedAttrs eventInst, '~', 2⟩) = some 11 := by
  have h := C8_auto_set_behavior_stripped (fun _ => none) (fun _ => eventMeta)
    eventMeta [createdStripped] (by rfl)
  have h1 := h.1 createdStripped (List.mem_singleton.mpr rfl) (by rfl)
  have h2 := h.2 "created" 11 (eventInst, 1) [(eventInst, 2)]
    [⟨capturedAttrs eventInst, '+', 1⟩, ⟨capturedAttrs eventInst, '~', 2⟩]
    (by decide) (by decide) rfl (by decide) (by decide) (by rfl)
  exact ⟨h1.1, h1.2.1, h1.2.2 11 99,
    h2 _ (List.mem_cons_self _ _),
    h2 _ (List.mem_cons_of_mem _ (List.mem_cons_self _ _))⟩

/- ------------------------------------------------------------------ -/
/- C9 -/

/-- Substring test on strings, for asking whether an error message names
a model or a field. -/
def strContains (s t : String) : Bool := decide (t.data <:+: s.data)

theorem transformField_invalid (kc : String → Option Nat)
    (targets : String → ModelMeta) (f : Field) (relTo : String)
    (rn : Option String) (hkind : f.kind = .foreignKey relTo rn)
    (h1 : ¬ (kc f.name).getD CONVERT = CONVERT)
    (h2 : ¬ (kc f.name).getD CONVERT = PRESERVE) :
    transformField kc targets f = .error "Invalid key conversion type" := by
  have hfk : fkStage kc targets f = .error "Invalid key conversion type" := by
    obtain ⟨nm, an, kd, opts, pk, un, di, nl, bl, anow, aadd⟩ := f
    simp only at hkind h1 h2
    subst hkind
    simp only [fkStage]
    rw [if_neg h1, if_neg h2]
  rw [transformField, hfk]

theorem fkStage_ok_of_valid (kc : String → Option Nat)
    (targets : String → ModelMeta) (f : Field)
    (h : ∀ relTo rn, f.kind = .foreignKey relTo rn →
      (kc f.name).getD CONVERT = CONVERT ∨
      (kc f.name).getD CONVERT = PRESERVE) :
    ∃ g, fkStage kc targets f = .ok g := by
  obtain ⟨nm, an, kd, opts, pk, un, di, nl, bl, anow, aadd⟩ := f
  simp only at h
  cases kd with
  | foreignKey relTo rn =>
      rcases h relTo rn rfl with hc | hp
      · refine ⟨{ (targets relTo).pk with
                  null := nl, blank := bl, name := an }, ?_⟩
        simp only [fkStage]
        rw [if_pos hc]
      · refine ⟨{ name := nm, attname := an,
                  kind := (.foreignKey relTo
                    (some ((rn.getD (strLower opts)) ++ "_historical"))),
                  optsObjectName := opts, primary_key := pk, unique := un,
                  db_index := di, null := nl, blank := bl, auto_now := anow,
                  auto_now_add := aadd }, ?_⟩
        simp only [fkStage]
        rw [if_neg (by rw [hp]; decide), if_pos hp]
  | autoField => exact ⟨_, rfl⟩
  | integerField => exact ⟨_, rfl⟩
  | charField => exact ⟨_, rfl⟩
  | dateField => exact ⟨_, rfl⟩
  | dateTimeField => exact ⟨_, rfl⟩
  | timeField => exact ⟨_, rfl⟩

theorem copyFieldList_invalid (kc : String → Option Nat)
    (targets : String → ModelMeta) (fs : List Field)
    (h : ∃ f ∈ fs, isForeignKey f.kind = true ∧
      ¬ (kc f.name).getD CONVERT = CONVERT ∧
      ¬ (kc f.name).getD CONVERT = PRESERVE) :
    copyFieldList kc targets fs = .error "Invalid key conversion type" := by
  induction fs with
  | nil =>
      obtain ⟨f, hf, _⟩ := h
      exact absurd hf (List.not_mem_nil f)
  | cons f fs ih =>
      rw [copyFieldList]
      by_cases hf : isForeignKey f.kind = true ∧
          ¬ (kc f.name).getD CONVERT = CONVERT ∧
          ¬ (kc f.name).getD CONVERT = PRESERVE
      · obtain ⟨hk, h1, h2⟩ := hf
        cases hkind : f.kind with
        | foreignKey relTo rn =>
            rw [transformField_invalid kc targets f relTo rn hkind h1 h2]
        | autoField => rw [hkind] at hk; exact absurd hk (by decide)
        | integerField => rw [hkind] at hk; exact absurd hk (by decide)
        | charField => rw [hkind] at hk; exact absurd hk (by decide)
        | dateField => rw [hkind] at hk; exact absurd hk (by decide)
        | dateTimeField => rw [hkind] at hk; exact absurd hk (by decide)
        | timeField => rw [hkind] at hk; exact absurd hk (by decide)
      · have hvalid : ∀ relTo rn, f.kind = .foreignKey relTo rn →
            (kc f.name).getD CONVERT = CONVERT ∨
            (kc f.name).getD CONVERT = PRESERVE := by
          intro relTo rn hkind
          by_contra hcon
          push_neg at hcon
          exact hf ⟨by rw [hkind]; rfl, hcon.1, hcon.2⟩
        obtain ⟨g, hg⟩ := fkStage_ok_of_valid kc targets f hvalid
        have htf : transformField kc targets f =
            .ok (uniqueStage (dateStage (autoStage g))) := by
          rw [transformField, hg]
        rw [htf]
        have hrest : ∃ f' ∈ fs, isForeignKey f'.kind = true ∧
            ¬ (kc f'.name).getD CONVERT = CONVERT ∧
            ¬ (kc f'.name).getD CONVERT = PRESERVE := by
          obtain ⟨f', hmem, hprops⟩ := h
          rcases List.mem_cons.mp hmem with rfl | ht
          · exact absurd hprops hf
          · exact ⟨f', ht, hprops⟩
        rw [ih hrest]

/-- The concrete misconfiguration: policy value 3 for the author field. -/
def kcBad : String → Option Nat := fun n => if n = "author" then some 3 else none

/-- C9 counterexample: with policy value 3 on Book.author, copy_fields
raises ValueError with the fixed message, and that message contains
neither the offending model name Book nor the offending field name
author — so the claim that the error carries a message identifying the
offending type and field is false. -/
theorem C9_counterexample :
    copy_fields kcBad (fun _ => bookMeta) bookMeta =
      .error "Invalid key conversion type" ∧
    strContains "Invalid key conversion type" "Book" = false ∧
    strContains "Invalid key conversion type" "author" = false := by
  refine ⟨by rfl, by decide, by decide⟩

/-- C9 amended: an unrecognized policy value for a tracked foreign-key
field makes the field transformation fail immediately at
schema-declaration time with a fatal ValueError; the propagated message
is the fixed string Invalid key conversion type, which identifies neither
the offending type nor the offending field. -/
theorem C9_invalid_policy_fatal (kc : String → Option Nat)
    (targets : String → ModelMeta) (model : ModelMeta)
    (h : ∃ f ∈ model.fields, isForeignKey f.kind = true ∧
      ¬ (kc f.name).getD CONVERT = CONVERT ∧
      ¬ (kc f.name).getD CONVERT = PRESERVE) :
    copy_fields kc targets model = .error "Invalid key conversion type" :=
  copyFieldList_invalid kc targets model.fields h

/-- C9 witness: the amended statement at the concrete misconfigured
Book model. -/
theorem C9_invalid_policy_fatal_witness :
    copy_fields kcBad (fun _ => bookMeta) bookMeta =
      .error "Invalid key conversion type" :=
  C9_invalid_policy_fatal kcBad (fun _ => bookMeta) bookMeta (by decide)

end History
